import Mathlib

/-!
Verification development for the surface-sampling and training-target
synthesis pipeline of `neural_surface.cu` (pacex/tiny-cuda-nn).

The CUDA source is shallowly embedded:
* 32-bit machine integers are modelled as `Nat` (respectively `Int`) with
  explicit reduction modulo `2^32` where wrap-around matters;
* `float` data that the claims treat arithmetically is modelled as `ℚ`
  (target resolver) or `ℝ` (square roots in the sampler and face areas);
* raw C array reads that may go out of bounds are modelled with `Option`
  (`none` = undefined behaviour of the C code);
* a CUDA texture object is modelled by its mathematical lookup function
  (the `tex2D` primitive is external to the source file).
-/

namespace NeuralSurface

/-! ### Bit-level storage of face ids in float slots

`generate_face_positions` stores a `uint32_t` face id into a `float` slot by
bit reinterpretation (`*((float*) &faceId)`, line 206) and
`generate_training_target` reads it back the same way
(`*((uint32_t*)&training_batch[input_idx + 0])`, line 248).  A `float` slot
holds exactly 32 bits, so both directions are the identity on the 32-bit
pattern; a numeric conversion never happens. -/

/-- Writing a `uint32_t` value's bit pattern into a 32-bit float slot:
the slot afterwards holds exactly those 32 bits. -/
def uint32_store_bits (faceId : Nat) : Nat := faceId % 2 ^ 32

/-- Reading the 32-bit pattern of a float slot back as a `uint32_t`. -/
def uint32_load_bits (slot : Nat) : Nat := slot % 2 ^ 32

/-- `generate_training_target` assigns the reloaded `uint32_t` pattern to an
`int faceId` (line 248): two's-complement reinterpretation of the 32 bits. -/
def int32OfBits (bits : Nat) : Int :=
  if bits % 2 ^ 32 < 2 ^ 31 then (bits % 2 ^ 32 : Int)
  else (bits % 2 ^ 32 : Int) - 2 ^ 32

/-- Conversion of a C `int` to `uint32_t` (as in `uint32_t v0 = ...vertex_index`,
lines 604-606): reduction modulo `2^32`. -/
def uint32OfInt (x : Int) : Nat := (x % 2 ^ 32).toNat

/-- C6: bit-level round trip of a face id through a float slot. -/
theorem faceId_bit_roundtrip (id : Nat) (h : id < 2 ^ 24) :
    uint32_load_bits (uint32_store_bits id) = id ∧
    int32OfBits (uint32_store_bits id) = (id : Int) := by
  constructor
  · simp only [uint32_load_bits, uint32_store_bits]
    omega
  · simp only [int32OfBits, uint32_store_bits]
    split <;> omega

/-- Witness for C6 at the concrete face id 16777215 = 2^24 - 1. -/
theorem faceId_bit_roundtrip_witness :
    uint32_load_bits (uint32_store_bits 16777215) = 16777215 ∧
    int32OfBits (uint32_store_bits 16777215) = (16777215 : Int) :=
  faceId_bit_roundtrip 16777215 (by norm_num)

/-! ### Surface Point Sampler (`generate_face_positions`, lines 181-215)

Per sample the kernel draws `r` (already reduced by `fmodf(·,1.0f)` into
`[0,1)`), picks `faceId = (uint32_t)(r * n_faces)`, stores its bits, then
draws `r1, r2` and writes the two barycentric weights
`w1 = 1 - sqrt(r1)` and `w2 = sqrt(r1) * (1 - r2)`.
The float arithmetic is modelled over `ℝ`. -/

/-- One sample of `generate_face_positions`: given the three uniform draws
`r`, `r1`, `r2`, produce the written triple
(face-id bit pattern, `w1`, `w2`). -/
noncomputable def generate_face_positions (n_faces : Nat) (r r1 r2 : ℝ) :
    Nat × ℝ × ℝ :=
  (uint32_store_bits ⌊r * (n_faces : ℝ)⌋₊,
   1 - Real.sqrt r1,
   Real.sqrt r1 * (1 - r2))

/-- C1: for draws `r1, r2 ∈ [0,1)` the produced barycentric weights satisfy
`w1 ≥ 0`, `w2 ≥ 0` and `w1 + w2 ≤ 1`. -/
theorem sampled_barycentric_weights_valid (n_faces : Nat) (r r1 r2 : ℝ)
    (h1l : 0 ≤ r1) (h1u : r1 < 1) (h2l : 0 ≤ r2) (h2u : r2 < 1) :
    0 ≤ (generate_face_positions n_faces r r1 r2).2.1 ∧
    0 ≤ (generate_face_positions n_faces r r1 r2).2.2 ∧
    (generate_face_positions n_faces r r1 r2).2.1 +
      (generate_face_positions n_faces r r1 r2).2.2 ≤ 1 := by
  have hs0 : 0 ≤ Real.sqrt r1 := Real.sqrt_nonneg r1
  have hs1 : Real.sqrt r1 ≤ 1 := Real.sqrt_le_one.mpr (le_of_lt h1u)
  refine ⟨?_, ?_, ?_⟩
  · simpa [generate_face_positions] using sub_nonneg.mpr hs1
  · have : 0 ≤ 1 - r2 := by linarith
    simpa [generate_face_positions] using mul_nonneg hs0 this
  · have hmul : 0 ≤ Real.sqrt r1 * r2 := mul_nonneg hs0 h2l
    simp only [generate_face_positions]
    nlinarith

/-- Witness for C1 at the concrete draws `r = 0`, `r1 = 1/4`, `r2 = 1/2`. -/
theorem sampled_barycentric_weights_valid_witness :
    0 ≤ (generate_face_positions 7 0 (1/4) (1/2)).2.1 ∧
    0 ≤ (generate_face_positions 7 0 (1/4) (1/2)).2.2 ∧
    (generate_face_positions 7 0 (1/4) (1/2)).2.1 +
      (generate_face_positions 7 0 (1/4) (1/2)).2.2 ≤ 1 :=
  sampled_barycentric_weights_valid 7 0 (1/4) (1/2)
    (by norm_num) (by norm_num) (by norm_num) (by norm_num)

/-! ### Texture-Backed Target Resolver (`generate_training_target`, lines 235-311)

Data model from the source: `Texture { valid; texture }` where the CUDA
texture object is modelled by its lookup function (the `tex2D` primitive is
external), `Material { diffuse[3]; map_Kd; map_Bump }`, `tinyobj::index_t`
with its `int` members.  Float arithmetic is modelled over `ℚ`.  A raw C
array read is `arrGet?`; an out-of-bounds read is C undefined behaviour and
is modelled as `none`. -/

/-- A `Texture`: `valid` flag plus the lookup function of the bound CUDA
texture object (`tex2D<float4>` restricted to its x,y,z components). -/
structure Texture where
  valid : Bool
  sample : ℚ → ℚ → ℚ × ℚ × ℚ

/-- A `Material`: constant diffuse color and the two texture bindings. -/
structure Material where
  diffuse : ℚ × ℚ × ℚ
  map_Kd : Texture
  map_Bump : Texture

/-- `tinyobj::index_t` (the two members the pipeline reads). -/
structure ObjIndex where
  vertex_index : Int
  texcoord_index : Int
deriving DecidableEq

/-- Read of a C array at an `int` index; out of bounds is modelled `none`. -/
def arrGet? {α : Type} (l : List α) (i : Int) : Option α :=
  if h : 0 ≤ i ∧ i.toNat < l.length then some (l.get ⟨i.toNat, h.2⟩) else none

/-- One sample of `generate_training_target`: decode the face id from the
bits of input slot 0; out-of-range ids produce the all-zero 6-channel
target; otherwise interpolate the UV coordinate from the face's three
texcoord indices and resolve each channel group from the face's material
(texture lookup at `(u, 1-v)` when the binding is valid, constant fallback
otherwise). -/
def generate_training_target (n_faces : Nat) (materials : List Material)
    (material_ids : List Int) (indices : List ObjIndex) (texcoords : List ℚ)
    (bits : Nat) (w1 w2 : ℚ) : Option (List ℚ) :=
  let faceId : Int := int32OfBits bits
  if faceId < 0 ∨ (n_faces : Int) ≤ faceId then
    some [0, 0, 0, 0, 0, 0]
  else do
    let i1 ← arrGet? indices (3 * faceId + 0)
    let i2 ← arrGet? indices (3 * faceId + 1)
    let i3 ← arrGet? indices (3 * faceId + 2)
    let u1x ← arrGet? texcoords (2 * i1.texcoord_index + 0)
    let u1y ← arrGet? texcoords (2 * i1.texcoord_index + 1)
    let u2x ← arrGet? texcoords (2 * i2.texcoord_index + 0)
    let u2y ← arrGet? texcoords (2 * i2.texcoord_index + 1)
    let u3x ← arrGet? texcoords (2 * i3.texcoord_index + 0)
    let u3y ← arrGet? texcoords (2 * i3.texcoord_index + 1)
    let w3 : ℚ := 1 - w1 - w2
    let ux : ℚ := w1 * u1x + w2 * u2x + w3 * u3x
    let uy : ℚ := w1 * u1y + w2 * u2y + w3 * u3y
    let mid ← arrGet? material_ids faceId
    let mat ← arrGet? materials mid
    let dc : ℚ × ℚ × ℚ :=
      if mat.map_Kd.valid then mat.map_Kd.sample ux (1 - uy) else mat.diffuse
    let bc : ℚ × ℚ × ℚ :=
      if mat.map_Bump.valid then mat.map_Bump.sample ux (1 - uy)
      else (1/2, 1/2, 1)
    some [dc.1, dc.2.1, dc.2.2, bc.1, bc.2.1, bc.2.2]

/-- C2: a sample whose decoded face id is out of range `[0, n_faces)` —
in particular one equal to `n_faces` — yields the all-zero target vector on
all 6 configured output channels. -/
theorem out_of_range_faceId_zero_target (n_faces : Nat)
    (materials : List Material) (material_ids : List Int)
    (indices : List ObjIndex) (texcoords : List ℚ) (bits : Nat) (w1 w2 : ℚ)
    (hout : int32OfBits bits < 0 ∨ (n_faces : Int) ≤ int32OfBits bits) :
    generate_training_target n_faces materials material_ids indices texcoords
      bits w1 w2 = some (List.replicate 6 0) := by
  simp only [generate_training_target, if_pos hout]
  rfl

/-- Witness for C2: one face, and a sample whose face id bits decode to
`1 = n_faces`, one past the end. -/
theorem out_of_range_faceId_zero_target_witness :
    generate_training_target 1 [] [] [] [] 1 (1/3) (1/3) =
      some (List.replicate 6 0) :=
  out_of_range_faceId_zero_target 1 [] [] [] [] 1 (1/3) (1/3) (by decide)

/-- C5: for an in-range sample, `map_Kd.valid = false` puts the material's
constant diffuse color in channels 0..2, `map_Kd.valid = true` instead puts
the texture sampled at the vertically flipped coordinate `(u, 1-v)` there,
and `map_Bump.valid = false` puts the placeholder `(0.5, 0.5, 1.0)` in
channels 3..5. -/
theorem resolver_channel_group_semantics (n_faces : Nat)
    (materials : List Material) (material_ids : List Int)
    (indices : List ObjIndex) (texcoords : List ℚ) (bits : Nat) (w1 w2 : ℚ)
    (i1 i2 i3 : ObjIndex) (u1x u1y u2x u2y u3x u3y : ℚ) (mid : Int)
    (mat : Material)
    (h0 : 0 ≤ int32OfBits bits) (h1 : int32OfBits bits < (n_faces : Int))
    (hi1 : arrGet? indices (3 * int32OfBits bits) = some i1)
    (hi2 : arrGet? indices (3 * int32OfBits bits + 1) = some i2)
    (hi3 : arrGet? indices (3 * int32OfBits bits + 2) = some i3)
    (hu1x : arrGet? texcoords (2 * i1.texcoord_index) = some u1x)
    (hu1y : arrGet? texcoords (2 * i1.texcoord_index + 1) = some u1y)
    (hu2x : arrGet? texcoords (2 * i2.texcoord_index) = some u2x)
    (hu2y : arrGet? texcoords (2 * i2.texcoord_index + 1) = some u2y)
    (hu3x : arrGet? texcoords (2 * i3.texcoord_index) = some u3x)
    (hu3y : arrGet? texcoords (2 * i3.texcoord_index + 1) = some u3y)
    (hmid : arrGet? material_ids (int32OfBits bits) = some mid)
    (hmat : arrGet? materials mid = some mat) :
    ∃ out, generate_training_target n_faces materials material_ids indices
        texcoords bits w1 w2 = some out ∧
      (mat.map_Kd.valid = false →
        out.take 3 = [mat.diffuse.1, mat.diffuse.2.1, mat.diffuse.2.2]) ∧
      (mat.map_Kd.valid = true →
        out.take 3 =
          [(mat.map_Kd.sample (w1 * u1x + w2 * u2x + (1 - w1 - w2) * u3x)
              (1 - (w1 * u1y + w2 * u2y + (1 - w1 - w2) * u3y))).1,
           (mat.map_Kd.sample (w1 * u1x + w2 * u2x + (1 - w1 - w2) * u3x)
              (1 - (w1 * u1y + w2 * u2y + (1 - w1 - w2) * u3y))).2.1,
           (mat.map_Kd.sample (w1 * u1x + w2 * u2x + (1 - w1 - w2) * u3x)
              (1 - (w1 * u1y + w2 * u2y + (1 - w1 - w2) * u3y))).2.2]) ∧
      (mat.map_Bump.valid = false → out.drop 3 = [1/2, 1/2, 1]) := by
  have hnot : ¬ (int32OfBits bits < 0 ∨ (n_faces : Int) ≤ int32OfBits bits) := by
    push_neg
    exact ⟨h0, h1⟩
  refine ⟨[(if mat.map_Kd.valid then
              mat.map_Kd.sample (w1 * u1x + w2 * u2x + (1 - w1 - w2) * u3x)
                (1 - (w1 * u1y + w2 * u2y + (1 - w1 - w2) * u3y))
            else mat.diffuse).1,
          (if mat.map_Kd.valid then
              mat.map_Kd.sample (w1 * u1x + w2 * u2x + (1 - w1 - w2) * u3x)
                (1 - (w1 * u1y + w2 * u2y + (1 - w1 - w2) * u3y))
            else mat.diffuse).2.1,
          (if mat.map_Kd.valid then
              mat.map_Kd.sample (w1 * u1x + w2 * u2x + (1 - w1 - w2) * u3x)
                (1 - (w1 * u1y + w2 * u2y + (1 - w1 - w2) * u3y))
            else mat.diffuse).2.2,
          (if mat.map_Bump.valid then
              mat.map_Bump.sample (w1 * u1x + w2 * u2x + (1 - w1 - w2) * u3x)
                (1 - (w1 * u1y + w2 * u2y + (1 - w1 - w2) * u3y))
            else (1/2, 1/2, 1)).1,
          (if mat.map_Bump.valid then
              mat.map_Bump.sample (w1 * u1x + w2 * u2x + (1 - w1 - w2) * u3x)
                (1 - (w1 * u1y + w2 * u2y + (1 - w1 - w2) * u3y))
            else (1/2, 1/2, 1)).2.1,
          (if mat.map_Bump.valid then
              mat.map_Bump.sample (w1 * u1x + w2 * u2x + (1 - w1 - w2) * u3x)
                (1 - (w1 * u1y + w2 * u2y + (1 - w1 - w2) * u3y))
            else (1/2, 1/2, 1)).2.2], ?_, ?_, ?_, ?_⟩
  · simp only [generate_training_target, if_neg hnot]
    simp [hi1, hi2, hi3, hu1x, hu1y, hu2x, hu2y, hu3x, hu3y, hmid, hmat]
  · intro hkd
    simp [hkd]
  · intro hkd
    simp [hkd]
  · intro hbump
    simp [hbump]

/-- Witness for C5: a 1-face mesh whose material has both texture bindings
invalid; channels 0..2 carry the constant diffuse color `(1/4, 1/2, 3/4)`
and channels 3..5 carry the placeholder `(1/2, 1/2, 1)`. -/
theorem resolver_channel_group_semantics_witness :
    ∃ out, generate_training_target 1
        [⟨(1/4, 1/2, 3/4), ⟨false, fun _ _ => (0, 0, 0)⟩,
          ⟨false, fun _ _ => (0, 0, 0)⟩⟩]
        [0] [⟨0, 0⟩, ⟨0, 1⟩, ⟨0, 2⟩] [0, 0, 1, 0, 0, 1] 0 (1/3) (1/3) =
        some out ∧
      ((Material.mk (1/4, 1/2, 3/4) ⟨false, fun _ _ => (0, 0, 0)⟩
          ⟨false, fun _ _ => (0, 0, 0)⟩).map_Kd.valid = false →
        out.take 3 = [(1:ℚ)/4, 1/2, 3/4]) ∧
      ((Material.mk (1/4, 1/2, 3/4) ⟨false, fun _ _ => (0, 0, 0)⟩
          ⟨false, fun _ _ => (0, 0, 0)⟩).map_Kd.valid = true →
        out.take 3 = [0, 0, 0]) ∧
      ((Material.mk (1/4, 1/2, 3/4) ⟨false, fun _ _ => (0, 0, 0)⟩
          ⟨false, fun _ _ => (0, 0, 0)⟩).map_Bump.valid = false →
        out.drop 3 = [1/2, 1/2, 1]) := by
  obtain ⟨out, hout, hkd, _, hbump⟩ :=
    resolver_channel_group_semantics 1
      [⟨(1/4, 1/2, 3/4), ⟨false, fun _ _ => (0, 0, 0)⟩,
        ⟨false, fun _ _ => (0, 0, 0)⟩⟩]
      [0] [⟨0, 0⟩, ⟨0, 1⟩, ⟨0, 2⟩] [0, 0, 1, 0, 0, 1] 0 (1/3) (1/3)
      ⟨0, 0⟩ ⟨0, 1⟩ ⟨0, 2⟩ 0 0 1 0 0 1 0
      ⟨(1/4, 1/2, 3/4), ⟨false, fun _ _ => (0, 0, 0)⟩,
        ⟨false, fun _ _ => (0, 0, 0)⟩⟩
      (by decide) (by decide) rfl rfl rfl rfl rfl rfl rfl rfl rfl rfl rfl
  exact ⟨out, hout, hkd, fun hc => by simp at hc, hbump⟩

/-- A successful C array read at a nonnegative in-bounds index. -/
theorem arrGet?_eq_some_get {α : Type} (l : List α) (i : Int) (h0 : 0 ≤ i)
    (hlt : i.toNat < l.length) : arrGet? l i = some (l.get ⟨i.toNat, hlt⟩) := by
  simp [arrGet?, h0, hlt]

/-- A value produced by a C array read is an element of the array. -/
theorem arrGet?_mem {α : Type} {l : List α} {i : Int} {a : α}
    (h : arrGet? l i = some a) : a ∈ l := by
  unfold arrGet? at h
  split at h
  · simp only [Option.some.injEq] at h
    exact h ▸ l.get_mem _ _
  · exact absurd h (by simp)

/-- The Target Resolver never hits an out-of-bounds array access on a sample
whose decoded face id is in range: every lookup chain (texcoord indices and
the material table via `material_ids[faceId]`) resolves. -/
def resolverTotalInRange (n_faces : Nat) (materials : List Material)
    (material_ids : List Int) (indices : List ObjIndex)
    (texcoords : List ℚ) : Prop :=
  ∀ bits : Nat, ∀ w1 w2 : ℚ,
    0 ≤ int32OfBits bits → int32OfBits bits < (n_faces : Int) →
    (generate_training_target n_faces materials material_ids indices texcoords
      bits w1 w2).isSome = true

set_option maxHeartbeats 1000000 in
/-- C10: `generate_training_target` indexes the material table with
`material_ids[faceId]` unchecked; under the precondition that every entry of
the Face→Material Map is a valid material index (in particular, never the
`-1` "no material" sentinel, which the kernel has no branch for) and that
the mesh arrays are well formed, every in-range sample resolves without any
out-of-bounds access. -/
theorem material_lookup_welldefined (n_faces : Nat)
    (materials : List Material) (material_ids : List Int)
    (indices : List ObjIndex) (texcoords : List ℚ)
    (hmlen : material_ids.length = n_faces)
    (hmids : ∀ m ∈ material_ids, 0 ≤ m ∧ m.toNat < materials.length)
    (hilen : indices.length = 3 * n_faces)
    (htc : ∀ p ∈ indices, 0 ≤ p.texcoord_index ∧
      2 * p.texcoord_index.toNat + 1 < texcoords.length) :
    resolverTotalInRange n_faces materials material_ids indices texcoords := by
  intro bits w1 w2 h0 h1
  have hnot : ¬ (int32OfBits bits < 0 ∨ (n_faces : Int) ≤ int32OfBits bits) := by
    push_neg
    exact ⟨h0, h1⟩
  have hb1 : ((3 * int32OfBits bits).toNat) < indices.length := by
    rw [hilen]; omega
  have hb2 : ((3 * int32OfBits bits + 1).toNat) < indices.length := by
    rw [hilen]; omega
  have hb3 : ((3 * int32OfBits bits + 2).toNat) < indices.length := by
    rw [hilen]; omega
  have he1 := arrGet?_eq_some_get indices (3 * int32OfBits bits) (by omega) hb1
  have he2 := arrGet?_eq_some_get indices (3 * int32OfBits bits + 1) (by omega) hb2
  have he3 := arrGet?_eq_some_get indices (3 * int32OfBits bits + 2) (by omega) hb3
  obtain ⟨ht1a, ht1b⟩ := htc _ (arrGet?_mem he1)
  obtain ⟨ht2a, ht2b⟩ := htc _ (arrGet?_mem he2)
  obtain ⟨ht3a, ht3b⟩ := htc _ (arrGet?_mem he3)
  have hu1x := arrGet?_eq_some_get texcoords _ (by omega : (0:Int) ≤
    2 * (indices.get ⟨(3 * int32OfBits bits).toNat, hb1⟩).texcoord_index)
    (by omega)
  have hu1y := arrGet?_eq_some_get texcoords _ (by omega : (0:Int) ≤
    2 * (indices.get ⟨(3 * int32OfBits bits).toNat, hb1⟩).texcoord_index + 1)
    (by omega)
  have hu2x := arrGet?_eq_some_get texcoords _ (by omega : (0:Int) ≤
    2 * (indices.get ⟨(3 * int32OfBits bits + 1).toNat, hb2⟩).texcoord_index)
    (by omega)
  have hu2y := arrGet?_eq_some_get texcoords _ (by omega : (0:Int) ≤
    2 * (indices.get ⟨(3 * int32OfBits bits + 1).toNat, hb2⟩).texcoord_index + 1)
    (by omega)
  have hu3x := arrGet?_eq_some_get texcoords _ (by omega : (0:Int) ≤
    2 * (indices.get ⟨(3 * int32OfBits bits + 2).toNat, hb3⟩).texcoord_index)
    (by omega)
  have hu3y := arrGet?_eq_some_get texcoords _ (by omega : (0:Int) ≤
    2 * (indices.get ⟨(3 * int32OfBits bits + 2).toNat, hb3⟩).texcoord_index + 1)
    (by omega)
  have hbm : (int32OfBits bits).toNat < material_ids.length := by
    rw [hmlen]; omega
  have hemid := arrGet?_eq_some_get material_ids (int32OfBits bits) h0 hbm
  obtain ⟨hma, hmb⟩ := hmids _ (arrGet?_mem hemid)
  have hemat := arrGet?_eq_some_get materials _ hma hmb
  simp only [List.get_eq_getElem] at he1 he2 he3 hu1x hu1y hu2x hu2y hu3x hu3y hemid hemat
  simp only [generate_training_target, if_neg hnot]
  simp [he1, he2, he3, hu1x, hu1y, hu2x, hu2y, hu3x, hu3y, hemid, hemat]

/-- Witness for C10: a 1-face mesh with a valid Face→Material Map entry;
every in-range sample resolves. -/
theorem material_lookup_welldefined_witness :
    resolverTotalInRange 1
      [⟨(0, 0, 0), ⟨true, fun u v => (u, v, 0)⟩, ⟨true, fun _ _ => (1, 0, 0)⟩⟩]
      [0] [⟨0, 0⟩, ⟨0, 1⟩, ⟨0, 2⟩] [0, 0, 1, 0, 0, 1] :=
  material_lookup_welldefined 1
    [⟨(0, 0, 0), ⟨true, fun u v => (u, v, 0)⟩, ⟨true, fun _ _ => (1, 0, 0)⟩⟩]
    [0] [⟨0, 0⟩, ⟨0, 1⟩, ⟨0, 2⟩] [0, 0, 1, 0, 0, 1]
    rfl (by decide) rfl (by decide)

/-! ### Mesh Adjacency Builder (`main`, lines 594-673)

Host-side loop: for each face `i`, push `i` onto the incident-face lists of
its three vertices; then for each of the three edges, canonicalize by
`(vmin, vmax) = (min, max)` of the endpoints, search vertex `vmin`'s flat
edge vector for `vmax` (`std::find` over the whole flat vector); if absent
append the record `(vmax, n_vertices + i, 0xFFFFFFFF)`, otherwise overwrite
the slot two past the hit with the offset-encoded second face
`n_vertices + i`. -/

/-- The boundary sentinel `0xFFFFFFFF` for an edge's second face slot. -/
def no_second_face : Nat := 4294967295

/-- The per-vertex adjacency accumulators `adjFaces` / `adjEdges`
(lines 598-599). -/
structure AdjState where
  adjFaces : List (List Nat)
  adjEdges : List (List Nat)
deriving DecidableEq

/-- `adjFaces[v].push_back(i)` (lines 608-610). -/
def pushFace (fs : List (List Nat)) (v i : Nat) : List (List Nat) :=
  fs.set v (fs.getD v [] ++ [i])

/-- Process one face edge `(a, b)` of face `i` (one of the three blocks at
lines 612-657): canonicalize, search the flat vector of the min endpoint,
append a fresh record or overwrite the sentinel slot of the hit. -/
def processEdge (n_vertices i : Nat) (edges : List (List Nat)) (a b : Nat) :
    List (List Nat) :=
  let vmin := min a b
  let vmax := max a b
  let l := edges.getD vmin []
  match l.findIdx? (fun x => x == vmax) with
  | none => edges.set vmin (l ++ [vmax, n_vertices + i, no_second_face])
  | some pos => edges.set vmin (l.set (pos + 2) (n_vertices + i))

/-- Decode a vertex id of corner `k` of the face list, as the C code does:
`uint32_t v = indices[k].vertex_index` (lines 604-606). -/
def vtx (indices : List ObjIndex) (k : Nat) : Nat :=
  uint32OfInt ((indices.getD k ⟨0, 0⟩).vertex_index)

/-- The body of the adjacency loop for face `i` (lines 601-661). -/
def adjStep (n_vertices : Nat) (indices : List ObjIndex) (st : AdjState)
    (i : Nat) : AdjState :=
  let v0 := vtx indices (3 * i + 0)
  let v1 := vtx indices (3 * i + 1)
  let v2 := vtx indices (3 * i + 2)
  let fs := pushFace (pushFace (pushFace st.adjFaces v0 i) v1 i) v2 i
  let es := processEdge n_vertices i st.adjEdges v0 v1
  let es := processEdge n_vertices i es v0 v2
  let es := processEdge n_vertices i es v1 v2
  ⟨fs, es⟩

/-- The whole adjacency-building loop over faces (lines 601-661). -/
def buildAdjacency (n_vertices : Nat) (indices : List ObjIndex) : AdjState :=
  (List.range (indices.length / 3)).foldl (adjStep n_vertices indices)
    ⟨List.replicate n_vertices [], List.replicate n_vertices []⟩

/-- Resolving an edge `(a, b)` against the built table, with the same
canonicalization and search the builder uses (lines 612-624): returns the
stored record `(other_vertex, face_a, face_b_or_sentinel)` when present. -/
def lookupEdgeRecord (st : AdjState) (a b : Nat) : Option (Nat × Nat × Nat) :=
  let l := st.adjEdges.getD (min a b) []
  match l.findIdx? (fun x => x == max a b) with
  | none => none
  | some pos => some (l.getD pos 0, l.getD (pos + 1) 0, l.getD (pos + 2) 0)

/-- The single-triangle mesh of C3: 3 vertices, 1 face `(0, 1, 2)`. -/
def triIndices : List ObjIndex := [⟨0, 0⟩, ⟨1, 1⟩, ⟨2, 2⟩]

/-- C3 counterexample: on the single triangle, vertex 2's edge list does
not hold 2 incident-edge records (6 flat entries); every edge record is
stored only at the edge's minimum endpoint, so vertex 2 holds none. -/
theorem single_triangle_per_vertex_edges_refuted :
    ¬ ((buildAdjacency 3 triIndices).adjEdges.getD 2 []).length = 2 * 3 := by
  decide

/-- C3 amended: on the single triangle each vertex has exactly 1 incident
face; the three edge records live at the min endpoint of their edge
(2 records at vertex 0, 1 at vertex 1, 0 at vertex 2), each with the
boundary sentinel in its second-face slot. -/
theorem single_triangle_adjacency :
    (buildAdjacency 3 triIndices).adjFaces = [[0], [0], [0]] ∧
    (buildAdjacency 3 triIndices).adjEdges =
      [[1, 3, no_second_face, 2, 3, no_second_face],
       [2, 3, no_second_face], []] := by
  decide

/-- The two-triangle quad mesh of C7: 4 vertices, faces `(0, 1, 2)` and
`(3, 2, 1)` sharing the edge `{1, 2}` (seen as `(1,2)` in the first face
and `(2,1)` in the second). -/
def quadIndices : List ObjIndex :=
  [⟨0, 0⟩, ⟨1, 1⟩, ⟨2, 2⟩, ⟨3, 3⟩, ⟨2, 2⟩, ⟨1, 1⟩]

/-- C7: on the shared-edge mesh the shared edge `{1, 2}` has exactly one
stored record, both face slots carry the offset-encoded faces
`n_vertices + 0 = 4` and `n_vertices + 1 = 5` (no sentinel left), and both
endpoint orderings resolve to that same record. -/
theorem shared_edge_record :
    (((buildAdjacency 4 quadIndices).adjEdges.getD 1 []).count 2 = 1 ∧
      (buildAdjacency 4 quadIndices).adjEdges =
        [[1, 4, no_second_face, 2, 4, no_second_face],
         [2, 4, 5, 3, 5, no_second_face], [3, 5, no_second_face], []]) ∧
    lookupEdgeRecord (buildAdjacency 4 quadIndices) 1 2 = some (2, 4, 5) ∧
    lookupEdgeRecord (buildAdjacency 4 quadIndices) 2 1 = some (2, 4, 5) := by
  decide

/-- Every entry stored in a vertex's flat edge vector exceeds that vertex's
own index. -/
def edgesAboveMin (es : List (List Nat)) : Prop :=
  ∀ v : Nat, ∀ x ∈ es.getD v [], v < x

/-- The three decoded vertex ids of face `i` are pairwise distinct and in
range (the §3 mesh invariant plus C9's distinctness proviso). -/
def faceOK (n_vertices : Nat) (indices : List ObjIndex) (i : Nat) : Prop :=
  vtx indices (3 * i + 0) ≠ vtx indices (3 * i + 1) ∧
  vtx indices (3 * i + 0) ≠ vtx indices (3 * i + 2) ∧
  vtx indices (3 * i + 1) ≠ vtx indices (3 * i + 2) ∧
  vtx indices (3 * i + 0) < n_vertices ∧
  vtx indices (3 * i + 1) < n_vertices ∧
  vtx indices (3 * i + 2) < n_vertices

instance (n_vertices : Nat) (indices : List ObjIndex) (i : Nat) :
    Decidable (faceOK n_vertices indices i) := by
  unfold faceOK; infer_instance

/-- Membership in a vertex's list after a single `set` of another list. -/
theorem mem_getD_set {es : List (List Nat)} {v : Nat} {l2 : List Nat}
    {w x : Nat} (h : x ∈ (es.set v l2).getD w []) :
    (w = v ∧ x ∈ l2) ∨ x ∈ es.getD w [] := by
  rw [List.getD_eq_getElem?_getD] at h
  rw [List.getD_eq_getElem?_getD]
  by_cases hwv : v = w
  · subst hwv
    by_cases hlen : v < es.length
    · rw [List.getElem?_set_self hlen] at h
      exact Or.inl ⟨rfl, by simpa using h⟩
    · rw [List.set_eq_of_length_le (Nat.le_of_not_lt hlen)] at h
      exact Or.inr h
  · rw [List.getElem?_set_ne hwv] at h
    exact Or.inr h

/-- `processEdge` preserves the min-endpoint invariant: everything it writes
into vertex `min a b`'s list (the other endpoint `max a b`, the
offset-encoded face `n_vertices + i`, the sentinel) exceeds `min a b`. -/
theorem processEdge_preserves (n_vertices i : Nat) {es : List (List Nat)}
    (a b : Nat) (hes : edgesAboveMin es) (hab : a ≠ b) (ha : a < n_vertices)
    (hb : b < n_vertices) (hV : n_vertices ≤ no_second_face) :
    edgesAboveMin (processEdge n_vertices i es a b) := by
  have hnsf : no_second_face = 4294967295 := rfl
  intro v x hx
  simp only [processEdge] at hx
  split at hx
  · rcases mem_getD_set hx with ⟨rfl, hx2⟩ | hx2
    · rcases List.mem_append.mp hx2 with hx3 | hx3
      · exact hes _ _ hx3
      · simp only [no_second_face, List.mem_cons, List.not_mem_nil,
          or_false] at hx3
        rcases hx3 with rfl | rfl | rfl <;> omega
    · exact hes _ _ hx2
  · rcases mem_getD_set hx with ⟨rfl, hx2⟩ | hx2
    · rcases List.mem_or_eq_of_mem_set hx2 with hx3 | rfl
      · exact hes _ _ hx3
      · omega
    · exact hes _ _ hx2

/-- One face-loop iteration preserves the min-endpoint invariant. -/
theorem adjStep_preserves (n_vertices : Nat) (indices : List ObjIndex)
    (st : AdjState) (i : Nat) (hInv : edgesAboveMin st.adjEdges)
    (hok : faceOK n_vertices indices i)
    (hV : n_vertices ≤ no_second_face) :
    edgesAboveMin (adjStep n_vertices indices st i).adjEdges := by
  obtain ⟨h01, h02, h12, hr0, hr1, hr2⟩ := hok
  simp only [adjStep]
  exact processEdge_preserves n_vertices i _ _
    (processEdge_preserves n_vertices i _ _
      (processEdge_preserves n_vertices i _ _ hInv h01 hr0 hr1 hV)
      h02 hr0 hr2 hV)
    h12 hr1 hr2 hV

/-- Folding the face loop over any list of well-formed faces preserves the
min-endpoint invariant. -/
theorem foldl_adjStep_preserves (n_vertices : Nat) (indices : List ObjIndex)
    (hV : n_vertices ≤ no_second_face) (l : List Nat) :
    ∀ st : AdjState, edgesAboveMin st.adjEdges →
      (∀ i ∈ l, faceOK n_vertices indices i) →
      edgesAboveMin ((l.foldl (adjStep n_vertices indices) st).adjEdges) := by
  induction l with
  | nil => exact fun st h _ => h
  | cons i rest ih =>
    intro st h hg
    simp only [List.foldl_cons]
    exact ih _
      (adjStep_preserves n_vertices indices st i h (hg i (by simp)) hV)
      (fun j hj => hg j (List.mem_cons_of_mem _ hj))

/-- C9: in the built adjacency table an edge record lives only in the edge
list of its minimum endpoint: for every vertex `v`, every entry of `v`'s
flat edge vector — in particular each record's other-endpoint field —
is strictly greater than `v` (so `min v other = v`: no vertex's list holds
an edge whose minimum endpoint is a different vertex).  Hypotheses: every
face has three pairwise-distinct in-range vertex ids, and the vertex count
fits in `uint32` below the sentinel. -/
theorem edge_records_at_min_endpoint (n_vertices : Nat)
    (indices : List ObjIndex) (hV : n_vertices ≤ no_second_face)
    (hfaces : ∀ i < indices.length / 3, faceOK n_vertices indices i) :
    edgesAboveMin ((buildAdjacency n_vertices indices).adjEdges) := by
  unfold buildAdjacency
  apply foldl_adjStep_preserves n_vertices indices hV
  · intro v x hx
    rw [List.getD_eq_getElem?_getD, List.getElem?_replicate] at hx
    split at hx <;> simp at hx
  · intro i hi
    exact hfaces i (List.mem_range.mp hi)

/-- Witness for C9 on the single-triangle mesh. -/
theorem edge_records_at_min_endpoint_witness :
    edgesAboveMin ((buildAdjacency 3 triIndices).adjEdges) :=
  edge_records_at_min_endpoint 3 triIndices (by decide) (by decide)

/-! ### Face-Area CDF construction (`main`, lines 565-592)

The histogram loop computes `area = 0.5f * length(cross(v2-v1, v3-v1))`
per face and accumulates `area_sum`; the CDF loop then runs
`c_prob += histogram[i] / area_sum; cdf_host[i] = c_prob` with no check on
`area_sum`.  Float arithmetic is modelled over `ℝ`; the IEEE division
`0/0 = NaN` (and its propagation through the running sum) is modelled by
`Option ℝ` with `none` standing for NaN. -/

/-- Componentwise difference of `vec3` values. -/
def vsub (a b : ℝ × ℝ × ℝ) : ℝ × ℝ × ℝ :=
  (a.1 - b.1, a.2.1 - b.2.1, a.2.2 - b.2.2)

/-- The `cross` product of `vec3` values. -/
def cross (a b : ℝ × ℝ × ℝ) : ℝ × ℝ × ℝ :=
  (a.2.1 * b.2.2 - a.2.2 * b.2.1,
   a.2.2 * b.1 - a.1 * b.2.2,
   a.1 * b.2.1 - a.2.1 * b.1)

/-- The `length` of a `vec3`. -/
noncomputable def vlength (a : ℝ × ℝ × ℝ) : ℝ :=
  Real.sqrt (a.1 ^ 2 + a.2.1 ^ 2 + a.2.2 ^ 2)

/-- One face's area, `0.5f * length(cross(v2 - v1, v3 - v1))` (line 581). -/
noncomputable def faceArea (v1 v2 v3 : ℝ × ℝ × ℝ) : ℝ :=
  0.5 * vlength (cross (vsub v2 v1) (vsub v3 v1))

/-- Fetch corner position `attrib.vertices[3*vi .. 3*vi+2]`
(lines 569-579). -/
def fetchVertex (vertices : List ℝ) (vi : Nat) : ℝ × ℝ × ℝ :=
  (vertices.getD (3 * vi) 0, vertices.getD (3 * vi + 1) 0,
   vertices.getD (3 * vi + 2) 0)

/-- The per-face area histogram (lines 566-584). -/
noncomputable def histogram (vertices : List ℝ) (indices : List ObjIndex) :
    List ℝ :=
  (List.range (indices.length / 3)).map (fun i =>
    faceArea (fetchVertex vertices (vtx indices (3 * i + 0)))
      (fetchVertex vertices (vtx indices (3 * i + 1)))
      (fetchVertex vertices (vtx indices (3 * i + 2))))

/-- One step `c_prob += histogram[i] / area_sum` of the CDF loop
(line 590); with `area_sum = 0` the float division yields NaN (`none`),
and NaN absorbs every later addition. -/
noncomputable def cdfStep (area_sum : ℝ) (c_prob : Option ℝ) (a : ℝ) :
    Option ℝ :=
  if area_sum = 0 then none else c_prob.map (fun p => p + a / area_sum)

/-- The CDF loop (lines 586-592): unconditionally produces a buffer with
one entry per face; no failure path exists. -/
noncomputable def buildCdf (vertices : List ℝ) (indices : List ObjIndex) :
    List (Option ℝ) :=
  let h := histogram vertices indices
  let area_sum := h.sum
  (h.foldl
    (fun acc a => (acc.1 ++ [cdfStep area_sum acc.2 a], cdfStep area_sum acc.2 a))
    (([] : List (Option ℝ)), some 0)).1

/-- C4 (code behaviour at the failing input): for an all-degenerate mesh —
one face whose three corners coincide, total area `0` — the CDF
construction does not fail; it divides by zero and produces a buffer of
`n_faces = 1` NaN entries. -/
theorem degenerate_mesh_cdf_buffer :
    buildCdf [0, 0, 0] [⟨0, 0⟩, ⟨0, 0⟩, ⟨0, 0⟩] = [none] := by
  have hv0 : vtx [⟨0, 0⟩, ⟨0, 0⟩, ⟨0, 0⟩] 0 = 0 := by decide
  have hv1 : vtx [⟨0, 0⟩, ⟨0, 0⟩, ⟨0, 0⟩] 1 = 0 := by decide
  have hv2 : vtx [⟨0, 0⟩, ⟨0, 0⟩, ⟨0, 0⟩] 2 = 0 := by decide
  have hfetch : fetchVertex [0, 0, 0] 0 = ((0 : ℝ), 0, 0) := by
    norm_num [fetchVertex]
  have harea : faceArea ((0 : ℝ), 0, 0) ((0 : ℝ), 0, 0) ((0 : ℝ), 0, 0) = 0 := by
    norm_num [faceArea, vlength, cross, vsub, Real.sqrt_zero]
  have hh : histogram [0, 0, 0] [⟨0, 0⟩, ⟨0, 0⟩, ⟨0, 0⟩] = [0] := by
    simp only [histogram, List.length_cons, List.length_nil]
    norm_num [List.range_succ, hv0, hv1, hv2, hfetch, harea]
    exact harea
  simp only [buildCdf, hh]
  simp [cdfStep]

/-! ### Training-loop logging cadence (`trainAndEvaluate`, lines 384-457)

`interval` starts at 10; `print_loss = (i % interval == 0)`; the loss is
accumulated when `i % min(interval, 100) == 0`; after the body,
`if (print_loss && i > 0 && interval < 1000) interval *= 10`. -/

/-- The end-of-iteration interval update (line 454-456). -/
def nextInterval (i interval : Nat) : Nat :=
  if i % interval = 0 ∧ 0 < i ∧ interval < 1000 then interval * 10 else interval

/-- The value of `interval` at entry to step `i`, as a pure function of the
step index (initial value 10, line 384). -/
def intervalAt : Nat → Nat
  | 0 => 10
  | i + 1 => nextInterval i (intervalAt i)

/-- `print_loss` at step `i` (line 387). -/
def printLossAt (i : Nat) : Bool := i % intervalAt i == 0

/-- The loss-accumulation condition at step `i` (line 409). -/
def accumLossAt (i : Nat) : Bool := i % min (intervalAt i) 100 == 0

/-- Closed form of the interval schedule: 10 up to step 10, 100 up to step
100, then 1000 forever (the cap). -/
theorem intervalAt_closed (i : Nat) :
    intervalAt i = if i ≤ 10 then 10 else if i ≤ 100 then 100 else 1000 := by
  induction i with
  | zero => rfl
  | succ n ih =>
    simp only [intervalAt, ih, nextInterval]
    split_ifs <;> omega

/-- C8: the loss is printed exactly at steps 0, 10, 100 and every positive
multiple of 1000, and the loss sample used for the printed average is
accumulated exactly when `i % min(interval, 100) == 0`, i.e. every 10 steps
up to step 10 and every 100 steps afterwards. -/
theorem loss_logging_schedule (i : Nat) :
    (printLossAt i = true ↔
      (i = 0 ∨ i = 10 ∨ i = 100 ∨ (1000 ≤ i ∧ i % 1000 = 0))) ∧
    ((accumLossAt i = true ↔ i % min (intervalAt i) 100 = 0) ∧
      (accumLossAt i = true ↔
        ((i ≤ 10 ∧ i % 10 = 0) ∨ (10 < i ∧ i % 100 = 0)))) := by
  have hc := intervalAt_closed i
  refine ⟨?_, ?_, ?_⟩
  · simp only [printLossAt, hc, beq_iff_eq]
    split_ifs <;> omega
  · simp only [accumLossAt, beq_iff_eq]
  · simp only [accumLossAt, hc, beq_iff_eq]
    split_ifs <;> norm_num <;> omega

end NeuralSurface
